import Mathlib

/-!
# MAX31855 thermocouple driver: frame decoding

A shallow embedding of `MAX31855.cpp` / `MAX31855.h`.

Modelling conventions.

* `unsigned long` is the 32-bit unsigned type of the Arduino targets the library
  is written for.  A value of that type is a natural number below `2 ^ 32`; the
  C operators `&` and `>>` are `&&&` and `>>>` on `Nat`, and the ones' complement
  `~x` of a 32-bit value is `0xFFFFFFFF - x`.
* `double` is IEEE 754 binary64, and a finite `double` is the rational number it
  denotes.  Every value on the Celsius path (the masked field, `+ 1`, `* -1`,
  `* 0.25`, `* 0.0625`) is an integer multiple of `1/16` of magnitude at most
  `8192`, hence is represented exactly and those operations are exact.  The
  three operations of the Fahrenheit conversion `(temperature * 9.0 / 5.0) + 32`
  are not: each is the exact result rounded to the nearest binary64 number,
  ties to even (`dmul`, `ddiv`, `dadd`).  No value of the driver comes near the
  overflow threshold `2 ^ 1024`, which is not modelled.
* `readThermocouple` and `readJunction` obtain their frame from `readData()` in
  their first statement and never touch the pins again.  The decoders below take
  the value returned by that call as the explicit argument `data`;
  `readThermocoupleCall` and `readJunctionCall` are the complete calls, which
  run `readData` on the board and decode its result.
* The pins are explicit state: `readData` and the constructor pass a `Board`
  along, on which the Arduino primitives act.
-/

namespace MAX31855

/-! ## Constants and types of `MAX31855.h` -/

/-- No thermocouple. -/
def FAULT_OPEN : ℚ := 10000

/-- Thermocouple short to ground. -/
def FAULT_SHORT_GND : ℚ := 10001

/-- Thermocouple short to VCC. -/
def FAULT_SHORT_VCC : ℚ := 10002

/-- MAX31855 not communicating. -/
def NO_MAX31855 : ℚ := 10003

/-- Unit of temperature requested by the caller. -/
inductive unit_t where
  | CELSIUS
  | FAHRENHEIT
  deriving DecidableEq, Repr

open unit_t

/-! ## Operators of the 32-bit `unsigned long` -/

/-- Ones' complement `~x` of a 32-bit unsigned value. -/
def bitNot32 (x : Nat) : Nat := 0xFFFFFFFF - x

/-! ## Arithmetic of `double` -/

/-- Nearest integer to `y`, the even one of the two when `y` lies half-way. -/
def roundNearestEven (y : ℚ) : ℤ :=
  let f := ⌊y⌋
  let r := y - f
  if r < 1 / 2 then f else if 1 / 2 < r then f + 1 else if f % 2 = 0 then f else f + 1

/-- Rounding of a rational to the nearest binary64 number, ties to even: with
`e = ⌊log₂ |x|⌋` (not below the smallest normal exponent `-1022`), the result is
the nearest multiple of `2 ^ (e - 52)`, a significand of at most 53 bits. -/
def roundDouble (x : ℚ) : ℚ :=
  if x = 0 then 0
  else
    let e := max (Int.log 2 |x|) (-1022)
    roundNearestEven (x / 2 ^ (e - 52)) * 2 ^ (e - 52)

/-- Multiplication `x * y` of two `double`s. -/
def dmul (x y : ℚ) : ℚ := roundDouble (x * y)

/-- Division `x / y` of two `double`s. -/
def ddiv (x y : ℚ) : ℚ := roundDouble (x / y)

/-- Addition `x + y` of two `double`s. -/
def dadd (x y : ℚ) : ℚ := roundDouble (x + y)

/-! ## The decoders of `MAX31855.cpp` -/

/-- Body of `MAX31855::readThermocouple(unit)` after `data = readData()`. -/
def readThermocouple (unit : unit_t) (data : Nat) : ℚ :=
  -- Initialize temperature
  let temperature : ℚ := 0
  -- Is this a MAX31855?  Bits 3 and 17 must be zero
  if data &&& 0x20008 ≠ 0 then
    NO_MAX31855
  -- If fault is detected
  else if data &&& 0x00010000 ≠ 0 then
    -- Check for fault type (3 LSB)
    match data &&& 0x00000007 with
    | 0x01 => FAULT_OPEN
    | 0x02 => FAULT_SHORT_GND
    | 0x04 => FAULT_SHORT_VCC
    | _ => temperature
  else
    -- Retrieve thermocouple temperature data and strip redundant data
    let data := data >>> 18
    -- Bit-14 is the sign
    let temperature : ℚ := ((data &&& 0x00001FFF : Nat) : ℚ)
    -- Check for negative temperature
    let temperature : ℚ :=
      if data &&& 0x00002000 ≠ 0 then
        let data := bitNot32 data
        let temperature : ℚ := ((data &&& 0x00001FFF : Nat) : ℚ)
        let temperature := temperature + 1
        temperature * -1
      else temperature
    -- Convert to Degree Celsius
    let temperature := temperature * 0.25
    -- If temperature unit in Fahrenheit is desired
    if unit = FAHRENHEIT then
      dadd (ddiv (dmul temperature 9.0) 5.0) 32
    else temperature

/-- Body of `MAX31855::readJunction(unit)` after `data = readData()`. -/
def readJunction (unit : unit_t) (data : Nat) : ℚ :=
  -- Is this a MAX31855?  Bits 3 and 17 must be zero
  if data &&& 0x20008 ≠ 0 then
    NO_MAX31855
  else
    -- Strip fault data bits & reserved bit
    let data := data >>> 4
    -- Bit-12 is the sign
    let temperature : ℚ := ((data &&& 0x000007FF : Nat) : ℚ)
    -- Check for negative temperature
    let temperature : ℚ :=
      if data &&& 0x00000800 ≠ 0 then
        let data := bitNot32 data
        let temperature : ℚ := ((data &&& 0x000007FF : Nat) : ℚ)
        let temperature := temperature + 1
        temperature * -1
      else temperature
    -- Convert to Degree Celsius
    let temperature := temperature * 0.0625
    -- If temperature unit in Fahrenheit is desired
    if unit = FAHRENHEIT then
      dadd (ddiv (dmul temperature 9.0) 5.0) 32
    else temperature

/-! ## Reference interpretations used to state the decoding claims -/

/-- Standard two's-complement value of a `w`-bit field `F`: `F` itself when the
sign bit (bit `w - 1`) is clear, `F - 2 ^ w` otherwise. -/
def twosComplement (w F : Nat) : Int :=
  if F < 2 ^ (w - 1) then (F : Int) else (F : Int) - 2 ^ w

/-! ## The pins: Arduino primitives used by the driver

`pinMode`, `digitalWrite` and `digitalRead` belong to the Arduino core, not to
this library.  A board is the mode and the driven level of every pin, together
with a log of every `digitalRead`.  What a read returns is decided by the
environment `env`, a function of the pin and of the whole board state (so also
of everything sampled so far); the driver has no influence on it. -/

/-- Logic level of a digital line (`LOW` is `0`, `HIGH` is `1`). -/
inductive Level where
  | LOW
  | HIGH
  deriving DecidableEq, Repr

/-- Pin configurations passed to `pinMode`. -/
inductive PinMode where
  | INPUT
  | OUTPUT
  | INPUT_PULLUP
  deriving DecidableEq, Repr

open Level PinMode

/-- One `digitalRead`: the pin sampled, the level obtained, and the levels driven
on all pins at that moment. -/
structure Sample where
  pin : Int
  value : Level
  level : Int → Level

/-- Board state: mode and driven level of each pin, and the log of all samples
taken so far, oldest first. -/
structure Board where
  mode : Int → Option PinMode
  level : Int → Level
  samples : List Sample

/-- Arduino `pinMode(pin, m)`. -/
def pinMode (pin : Int) (m : PinMode) (b : Board) : Board :=
  { b with mode := Function.update b.mode pin (some m) }

/-- Arduino `digitalWrite(pin, v)`: drive `pin` to level `v`. -/
def digitalWrite (pin : Int) (v : Level) (b : Board) : Board :=
  { b with level := Function.update b.level pin v }

/-- Arduino `digitalRead(pin)`: the level the environment presents on `pin`; the
read is appended to the log. -/
def digitalRead (env : Int → Board → Level) (pin : Int) (b : Board) : Level × Board :=
  let v := env pin b
  (v, { b with samples := b.samples ++ [{ pin := pin, value := v, level := b.level }] })

/-! ## The driver object and frame acquisition -/

/-- Private members of `class MAX31855`. -/
structure Pins where
  _miso : Int
  _cs : Int
  _clk : Int

/-- Constructor `MAX31855::MAX31855(miso, cs, clk)`. -/
def construct (miso cs clk : Int) (b : Board) : Pins × Board :=
  let self : Pins := { _miso := miso, _cs := cs, _clk := clk }
  -- MAX31855 data output pin
  -- Use internal pullup to be able to detect no connection to the MAX31855
  let b := pinMode self._miso INPUT_PULLUP b
  -- MAX31855 chip select input pin
  let b := pinMode self._cs OUTPUT b
  -- MAX31855 clock input pin
  let b := pinMode self._clk OUTPUT b
  -- Default output pins state
  let b := digitalWrite self._cs HIGH b
  let b := digitalWrite self._clk LOW b
  (self, b)

/-- The `for (bitCount = 31; bitCount >= 0; bitCount--)` loop of `readData`.
The first argument is `bitCount + 1`, the number of iterations still to run;
`1 <<< bitCount` stays below `2 ^ 32` because `bitCount ≤ 31`. -/
def shiftIn (self : Pins) (env : Int → Board → Level) : Nat → Nat → Board → Nat × Board
  | 0, data, b => (data, b)
  | bitCount + 1, data, b =>
    let b := digitalWrite self._clk HIGH b
    let (v, b) := digitalRead env self._miso b
    -- If data bit is high
    let data := if v ≠ LOW then data ||| (1 <<< bitCount) else data
    let b := digitalWrite self._clk LOW b
    shiftIn self env bitCount data b

/-- The function `MAX31855::readData()`. -/
def readData (self : Pins) (env : Int → Board → Level) (b : Board) : Nat × Board :=
  -- Clear data
  let data := 0
  -- Select the MAX31855 chip
  let b := digitalWrite self._cs LOW b
  -- Shift in 32-bit of data
  let (data, b) := shiftIn self env 32 data b
  -- Deselect MAX31855 chip
  let b := digitalWrite self._cs HIGH b
  (data, b)

/-- The whole of `MAX31855::readThermocouple(unit)`: acquire a frame with
`readData()`, then decode it. -/
def readThermocoupleCall (self : Pins) (env : Int → Board → Level) (unit : unit_t)
    (b : Board) : ℚ × Board :=
  let (data, b) := readData self env b
  (readThermocouple unit data, b)

/-- The whole of `MAX31855::readJunction(unit)`: acquire a frame with
`readData()`, then decode it. -/
def readJunctionCall (self : Pins) (env : Int → Board → Level) (unit : unit_t)
    (b : Board) : ℚ × Board :=
  let (data, b) := readData self env b
  (readJunction unit data, b)

/-! ## Observations used to state the protocol claims -/

/-- The samples logged during one call of `readData` started in state `b`, in
the order they were taken. -/
def acquired (self : Pins) (env : Int → Board → Level) (b : Board) : List Sample :=
  (readData self env b).2.samples.drop b.samples.length

/-- Idle state of the bus: chip-select high, clock low. -/
def idle (self : Pins) (b : Board) : Prop :=
  b.level self._cs = HIGH ∧ b.level self._clk = LOW

/-- A public operation of the driver. -/
inductive Call where
  | thermocouple (unit : unit_t)
  | junction (unit : unit_t)

/-- Board state after one public call. -/
def Call.run (self : Pins) (env : Int → Board → Level) : Call → Board → Board
  | Call.thermocouple unit, b => (readThermocoupleCall self env unit b).2
  | Call.junction unit, b => (readJunctionCall self env unit b).2

/-- Board state after a sequence of public calls, first call first. -/
def runAll (self : Pins) (env : Int → Board → Level) (calls : List Call) (b : Board) : Board :=
  calls.foldl (fun b c => c.run self env b) b

/-- A board on which nothing has happened yet. -/
def powerOn : Board :=
  { mode := fun _ => none, level := fun _ => LOW, samples := [] }

/-! ## Bit-mask lemmas -/

theorem testBit_0x20008 (i : Nat) (h : (0x20008 : Nat).testBit i = true) :
    i = 3 ∨ i = 17 := by
  by_cases hi : i < 18
  · interval_cases i <;>
      first
        | exact Or.inl rfl
        | exact Or.inr rfl
        | exact absurd h (by decide)
  · have hlt : (0x20008 : Nat) < 2 ^ i :=
      lt_of_lt_of_le (by norm_num) (Nat.pow_le_pow_right (by norm_num) (not_lt.mp hi))
    rw [Nat.testBit_lt_two_pow hlt] at h
    exact absurd h (by simp)

/-- The device test `data & 0x20008` is zero exactly when bits 3 and 17 are clear. -/
theorem and_0x20008_eq_zero (x : Nat) :
    x &&& 0x20008 = 0 ↔ x.testBit 3 = false ∧ x.testBit 17 = false := by
  constructor
  · intro h
    have h3 := congrArg (fun y => Nat.testBit y 3) h
    have h17 := congrArg (fun y => Nat.testBit y 17) h
    simp only [Nat.testBit_and, Nat.zero_testBit] at h3 h17
    have c3 : (0x20008 : Nat).testBit 3 = true := by decide
    have c17 : (0x20008 : Nat).testBit 17 = true := by decide
    rw [c3] at h3
    rw [c17] at h17
    simpa using And.intro h3 h17
  · rintro ⟨h3, h17⟩
    apply Nat.eq_of_testBit_eq
    intro i
    rw [Nat.testBit_and, Nat.zero_testBit]
    cases hc : (0x20008 : Nat).testBit i
    · simp
    · rcases testBit_0x20008 i hc with rfl | rfl
      · simp [h3]
      · simp [h17]

/-- A single-bit mask is zero exactly when that bit is clear. -/
theorem and_two_pow_eq_zero (x k : Nat) : x &&& 2 ^ k = 0 ↔ x.testBit k = false := by
  rw [Nat.and_two_pow]
  cases x.testBit k <;> simp

theorem and_0x10000_eq_zero (x : Nat) : x &&& 0x10000 = 0 ↔ x.testBit 16 = false :=
  and_two_pow_eq_zero x 16

theorem and_0x2000_eq_zero (x : Nat) : x &&& 0x2000 = 0 ↔ x.testBit 13 = false :=
  and_two_pow_eq_zero x 13

theorem and_0x800_eq_zero (x : Nat) : x &&& 0x800 = 0 ↔ x.testBit 11 = false :=
  and_two_pow_eq_zero x 11

theorem and_0x7 (x : Nat) : x &&& 0x7 = x % 8 :=
  Nat.and_pow_two_sub_one_eq_mod x 3

theorem and_0x1FFF (x : Nat) : x &&& 0x1FFF = x % 8192 :=
  Nat.and_pow_two_sub_one_eq_mod x 13

theorem and_0x7FF (x : Nat) : x &&& 0x7FF = x % 2048 :=
  Nat.and_pow_two_sub_one_eq_mod x 11

/-- Bit `k` as arithmetic: clear exactly when `x / 2 ^ k` is even. -/
theorem testBit_eq_false_iff (x k : Nat) : x.testBit k = false ↔ x / 2 ^ k % 2 = 0 := by
  rw [Nat.testBit_to_div_mod]
  simp

/-- The arithmetic form of `~` flips each of the 32 bits of a 32-bit value and
sets none above them. -/
theorem bitNot32_testBit (x : Nat) (hx : x < 2 ^ 32) (i : Nat) :
    (bitNot32 x).testBit i = (decide (i < 32) && !x.testBit i) := by
  have e : bitNot32 x = 2 ^ 32 - (x + 1) := by
    unfold bitNot32
    omega
  rw [e, Nat.testBit_two_pow_sub_succ hx]

/-! ## Rounding lemmas -/

/-- Rounding to the nearest integer moves a number by at most one half. -/
theorem roundNearestEven_error (y : ℚ) : |((roundNearestEven y : ℤ) : ℚ) - y| ≤ 1 / 2 := by
  have h1 := Int.floor_le y
  have h2 := Int.lt_floor_add_one y
  unfold roundNearestEven
  simp only
  rw [abs_le]
  split_ifs with c1 c2 c3
  · constructor <;> linarith
  · push_cast
    constructor <;> linarith
  · constructor <;> linarith
  · push_cast
    constructor <;> linarith

/-- Error of one binary64 rounding: half a unit in the last place, which for
`|x| < 2 ^ n` is at most `2 ^ (n - 54)`. -/
theorem roundDouble_error (x : ℚ) (n : ℤ) (hn : -1021 ≤ n) (h : |x| < 2 ^ n) :
    |roundDouble x - x| ≤ 2 ^ (n - 54) := by
  unfold roundDouble
  split_ifs with h0
  · rw [h0]
    simp only [sub_zero, abs_zero]
    positivity
  · simp only
    have hpos : 0 < |x| := abs_pos.mpr h0
    have hlog : Int.log 2 |x| < n :=
      (Int.lt_zpow_iff_log_lt (by norm_num) hpos).mp (by exact_mod_cast h)
    have he : max (Int.log 2 |x|) (-1022) ≤ n - 1 := by
      rw [max_le_iff]
      constructor <;> omega
    generalize max (Int.log 2 |x|) (-1022) = e at he
    have hq : (0 : ℚ) < 2 ^ (e - 52) := by positivity
    have hr := roundNearestEven_error (x / 2 ^ (e - 52))
    have hx : x = x / 2 ^ (e - 52) * 2 ^ (e - 52) := by
      field_simp
    have key : ((roundNearestEven (x / 2 ^ (e - 52)) : ℤ) : ℚ) * 2 ^ (e - 52) - x =
        (((roundNearestEven (x / 2 ^ (e - 52)) : ℤ) : ℚ) - x / 2 ^ (e - 52)) *
          2 ^ (e - 52) := by
      rw [sub_mul, ← hx]
    rw [key, abs_mul, abs_of_pos hq]
    have hle : (2 : ℚ) ^ (e - 52) ≤ 2 ^ (n - 53) :=
      zpow_le_zpow_right₀ (by norm_num) (by omega)
    have h2 : (2 : ℚ) ^ (n - 53) = 2 * 2 ^ (n - 54) := by
      rw [show n - 53 = 1 + (n - 54) by ring, zpow_add₀ (by norm_num), zpow_one]
    calc |((roundNearestEven (x / 2 ^ (e - 52)) : ℤ) : ℚ) - x / 2 ^ (e - 52)| * 2 ^ (e - 52)
        ≤ 1 / 2 * 2 ^ (e - 52) := mul_le_mul_of_nonneg_right hr hq.le
      _ ≤ 1 / 2 * 2 ^ (n - 53) := mul_le_mul_of_nonneg_left hle (by norm_num)
      _ = 2 ^ (n - 54) := by
          rw [h2]
          ring

/-- The Fahrenheit conversion in `double`, for a Celsius value of magnitude at
most `2048`: the three roundings together move the result by at most `2 ^ -40`
from the exact `t * 9 / 5 + 32`. -/
theorem fahrenheit_error_thermocouple (t : ℚ) (ht : |t| ≤ 2048) :
    |dadd (ddiv (dmul t 9) 5) 32 - (t * 9 / 5 + 32)| ≤ 1 / 2 ^ 40 := by
  rw [abs_le] at ht
  have ha := roundDouble_error (t * 9) 15 (by norm_num) (by
    rw [abs_lt]
    norm_num
    constructor <;> linarith)
  have ha' : |dmul t 9 - t * 9| ≤ 1 / 2 ^ 39 := by
    unfold dmul
    norm_num at ha ⊢
    exact ha
  rw [abs_le] at ha'
  have hb := roundDouble_error (dmul t 9 / 5) 12 (by norm_num) (by
    rw [abs_lt]
    norm_num
    constructor <;> linarith)
  have hb' : |ddiv (dmul t 9) 5 - dmul t 9 / 5| ≤ 1 / 2 ^ 42 := by
    unfold ddiv
    norm_num at hb ⊢
    exact hb
  rw [abs_le] at hb'
  have hc := roundDouble_error (ddiv (dmul t 9) 5 + 32) 12 (by norm_num) (by
    rw [abs_lt]
    norm_num
    constructor <;> linarith)
  have hc' : |dadd (ddiv (dmul t 9) 5) 32 - (ddiv (dmul t 9) 5 + 32)| ≤ 1 / 2 ^ 42 := by
    unfold dadd
    norm_num at hc ⊢
    exact hc
  rw [abs_le] at hc'
  rw [abs_le]
  norm_num at ha' hb' hc' ⊢
  constructor <;> linarith

/-- The Fahrenheit conversion in `double`, for a Celsius value of magnitude at
most `128`: the result is within `2 ^ -43` of the exact `t * 9 / 5 + 32`. -/
theorem fahrenheit_error_junction (t : ℚ) (ht : |t| ≤ 128) :
    |dadd (ddiv (dmul t 9) 5) 32 - (t * 9 / 5 + 32)| ≤ 1 / 2 ^ 43 := by
  rw [abs_le] at ht
  have ha := roundDouble_error (t * 9) 11 (by norm_num) (by
    rw [abs_lt]
    norm_num
    constructor <;> linarith)
  have ha' : |dmul t 9 - t * 9| ≤ 1 / 2 ^ 43 := by
    unfold dmul
    norm_num at ha ⊢
    exact ha
  rw [abs_le] at ha'
  have hb := roundDouble_error (dmul t 9 / 5) 8 (by norm_num) (by
    rw [abs_lt]
    norm_num
    constructor <;> linarith)
  have hb' : |ddiv (dmul t 9) 5 - dmul t 9 / 5| ≤ 1 / 2 ^ 46 := by
    unfold ddiv
    norm_num at hb ⊢
    exact hb
  rw [abs_le] at hb'
  have hc := roundDouble_error (ddiv (dmul t 9) 5 + 32) 9 (by norm_num) (by
    rw [abs_lt]
    norm_num
    constructor <;> linarith)
  have hc' : |dadd (ddiv (dmul t 9) 5) 32 - (ddiv (dmul t 9) 5 + 32)| ≤ 1 / 2 ^ 45 := by
    unfold dadd
    norm_num at hc ⊢
    exact hc
  rw [abs_le] at hc'
  rw [abs_le]
  norm_num at ha' hb' hc' ⊢
  constructor <;> linarith

/-! ## Case lemmas: one equation per path through the decoders -/

theorem readThermocouple_absent (unit : unit_t) (data : Nat) (h : data &&& 0x20008 ≠ 0) :
    readThermocouple unit data = NO_MAX31855 := by
  simp only [readThermocouple]
  rw [if_pos h]

theorem readJunction_absent (unit : unit_t) (data : Nat) (h : data &&& 0x20008 ≠ 0) :
    readJunction unit data = NO_MAX31855 := by
  simp only [readJunction]
  rw [if_pos h]

theorem hot_field_lt (frame : Nat) (h32 : frame < 2 ^ 32) : frame >>> 18 < 16384 := by
  rw [Nat.shiftRight_eq_div_pow]
  omega

/-- Every 14-bit field value occurs in a valid non-fault 32-bit frame. -/
theorem hot_field_surjective (F : Nat) (hF : F < 16384) :
    F * 2 ^ 18 < 2 ^ 32 ∧ (F * 2 ^ 18) >>> 18 = F ∧ (F * 2 ^ 18).testBit 17 = false ∧
      (F * 2 ^ 18).testBit 16 = false ∧ (F * 2 ^ 18).testBit 3 = false := by
  rw [Nat.shiftRight_eq_div_pow, testBit_eq_false_iff, testBit_eq_false_iff,
    testBit_eq_false_iff]
  norm_num
  omega

/-- The invert / mask-to-13-bits / add-1 / negate procedure on a 14-bit field. -/
theorem thermocouple_raw (F : Nat) (hF : F < 16384) :
    (if F &&& 0x00002000 ≠ 0 then
        (((bitNot32 F &&& 0x00001FFF : Nat) : ℚ) + 1) * -1
      else ((F &&& 0x00001FFF : Nat) : ℚ)) = ((twosComplement 14 F : Int) : ℚ) := by
  have hbit : F &&& 0x00002000 ≠ 0 ↔ 8192 ≤ F := by
    rw [Ne, and_0x2000_eq_zero, testBit_eq_false_iff]
    norm_num
    omega
  by_cases hs : 8192 ≤ F
  · rw [if_pos (hbit.mpr hs), and_0x1FFF]
    have hm : bitNot32 F % 8192 = 16383 - F := by
      unfold bitNot32
      omega
    have hlt : ¬ F < 2 ^ (14 - 1) := by
      norm_num
      exact hs
    rw [hm, twosComplement, if_neg hlt, Nat.cast_sub (by omega)]
    push_cast
    ring
  · rw [if_neg (fun h => hs (hbit.mp h)), and_0x1FFF]
    have hlt : F < 2 ^ (14 - 1) := by
      norm_num
      omega
    rw [twosComplement, if_pos hlt, Nat.mod_eq_of_lt (by omega)]
    push_cast
    ring

/-- The same procedure on the 12-bit field, applied to the whole shifted word. -/
theorem junction_raw (D : Nat) (hD : D < 2 ^ 32) :
    (if D &&& 0x00000800 ≠ 0 then
        (((bitNot32 D &&& 0x000007FF : Nat) : ℚ) + 1) * -1
      else ((D &&& 0x000007FF : Nat) : ℚ)) = ((twosComplement 12 (D % 4096) : Int) : ℚ) := by
  have hbit : D &&& 0x00000800 ≠ 0 ↔ 2048 ≤ D % 4096 := by
    rw [Ne, and_0x800_eq_zero, testBit_eq_false_iff]
    norm_num
    omega
  by_cases hs : 2048 ≤ D % 4096
  · rw [if_pos (hbit.mpr hs), and_0x7FF]
    have hm : bitNot32 D % 2048 = 4095 - D % 4096 := by
      unfold bitNot32
      omega
    have hlt : ¬ D % 4096 < 2 ^ (12 - 1) := by
      norm_num
      exact hs
    have hG : D % 4096 ≤ 4095 := by omega
    rw [hm, twosComplement, if_neg hlt, Nat.cast_sub hG]
    generalize D % 4096 = G
    push_cast
    ring
  · rw [if_neg (fun h => hs (hbit.mp h)), and_0x7FF]
    have hlt : D % 4096 < 2 ^ (12 - 1) := by
      norm_num
      omega
    have hm : D % 2048 = D % 4096 := by omega
    rw [twosComplement, if_pos hlt, hm]
    generalize D % 4096 = G
    push_cast
    rfl

/-- The constants of the conversions, as rationals. -/
theorem double_literals :
    (0.25 : ℚ) = 1 / 4 ∧ (0.0625 : ℚ) = 1 / 16 ∧ (9.0 : ℚ) = 9 ∧ (5.0 : ℚ) = 5 := by
  norm_num

/-- Non-fault path of `readThermocouple`: the Celsius value is the signed field
over four, and the Fahrenheit conversion in `double` is applied on top of it. -/
theorem readThermocouple_reading (unit : unit_t) (data : Nat) (h32 : data < 2 ^ 32)
    (hdev : data &&& 0x20008 = 0) (hflt : data &&& 0x10000 = 0) :
    readThermocouple unit data =
      if unit = FAHRENHEIT then
        dadd (ddiv (dmul (((twosComplement 14 (data >>> 18) : Int) : ℚ) / 4) 9) 5) 32
      else ((twosComplement 14 (data >>> 18) : Int) : ℚ) / 4 := by
  simp only [readThermocouple]
  rw [if_neg (not_not.mpr hdev), if_neg (not_not.mpr hflt),
    thermocouple_raw _ (hot_field_lt data h32)]
  obtain ⟨e1, _, e9, e5⟩ := double_literals
  rw [e1, e9, e5, mul_one_div]

/-- Decoding path of `readJunction`, taken whenever bits 3 and 17 are clear. -/
theorem readJunction_reading (unit : unit_t) (data : Nat) (h32 : data < 2 ^ 32)
    (hdev : data &&& 0x20008 = 0) :
    readJunction unit data =
      if unit = FAHRENHEIT then
        dadd (ddiv (dmul (((twosComplement 12 (data >>> 4 % 4096) : Int) : ℚ) / 16) 9) 5) 32
      else ((twosComplement 12 (data >>> 4 % 4096) : Int) : ℚ) / 16 := by
  have hD : data >>> 4 < 2 ^ 32 := by
    rw [Nat.shiftRight_eq_div_pow]
    omega
  simp only [readJunction]
  rw [if_neg (not_not.mpr hdev), junction_raw _ hD]
  obtain ⟨_, e1, e9, e5⟩ := double_literals
  rw [e1, e9, e5, mul_one_div]

/-- Fault path of `readThermocouple`: the `switch` on the three low bits. -/
theorem readThermocouple_fault (unit : unit_t) (data : Nat)
    (hdev : data &&& 0x20008 = 0) (hflt : data &&& 0x10000 ≠ 0) :
    readThermocouple unit data =
      if data % 8 = 1 then FAULT_OPEN
      else if data % 8 = 2 then FAULT_SHORT_GND
      else if data % 8 = 4 then FAULT_SHORT_VCC
      else 0 := by
  simp only [readThermocouple]
  rw [if_neg (not_not.mpr hdev), if_pos hflt, and_0x7]
  split
  · next h => rw [h]; rfl
  · next h => rw [h]; rfl
  · next h => rw [h]; rfl
  · next h1 h2 h4 => rw [if_neg h1, if_neg h2, if_neg h4]

/-! ## Claims -/

/-- C1: for every frame in which bit 3 or bit 17 is set (equivalently
`frame &&& 0x20008 ≠ 0`) and for each unit, both `readThermocouple` and
`readJunction` return the device-absent sentinel `NO_MAX31855 = 10003`; no
condition is placed on any other bit. -/
theorem absent_sentinel_of_reserved_bit (unit : unit_t) (frame : Nat)
    (h : frame.testBit 3 = true ∨ frame.testBit 17 = true) :
    frame &&& 0x20008 ≠ 0 ∧
      readThermocouple unit frame = 10003 ∧ readJunction unit frame = 10003 := by
  have hne : frame &&& 0x20008 ≠ 0 := by
    intro h0
    have hb := (and_0x20008_eq_zero frame).mp h0
    rcases h with h | h
    · rw [hb.1] at h
      exact Bool.noConfusion h
    · rw [hb.2] at h
      exact Bool.noConfusion h
  refine ⟨hne, ?_, ?_⟩
  · rw [readThermocouple_absent unit frame hne]
    rfl
  · rw [readJunction_absent unit frame hne]
    rfl

/-- Witness for C1: the frame `0x00030007` has bit 17 set together with the
fault flag and all three fault-type bits. -/
theorem absent_sentinel_of_reserved_bit_witness :
    (Nat.testBit 0x00030007 3 = true ∨ Nat.testBit 0x00030007 17 = true) ∧
      (0x00030007 &&& 0x20008 ≠ 0 ∧
        readThermocouple FAHRENHEIT 0x00030007 = 10003 ∧
        readJunction FAHRENHEIT 0x00030007 = 10003) :=
  ⟨Or.inr (by decide),
    absent_sentinel_of_reserved_bit FAHRENHEIT 0x00030007 (Or.inr (by decide))⟩

/-- Bits 3 and 17 clear, in the form tested by the code. -/
theorem device_ok (frame : Nat) (h17 : frame.testBit 17 = false)
    (h3 : frame.testBit 3 = false) : frame &&& 0x20008 = 0 :=
  (and_0x20008_eq_zero frame).mpr ⟨h3, h17⟩

/-- Bit 16 clear, in the form tested by the code. -/
theorem no_fault (frame : Nat) (h16 : frame.testBit 16 = false) : frame &&& 0x10000 = 0 :=
  (and_0x10000_eq_zero frame).mpr h16

/-- Bit 16 set, in the form tested by the code. -/
theorem fault_flagged (frame : Nat) (h16 : frame.testBit 16 = true) :
    frame &&& 0x10000 ≠ 0 := by
  intro h0
  rw [(and_0x10000_eq_zero frame).mp h0] at h16
  exact Bool.noConfusion h16

/-- C2: for every 32-bit frame with bits 17, 16 and 3 clear, the field
`F = frame >>> 18` (bits 31..18) is below `16384` and `readThermocouple CELSIUS`
equals `s / 4`, where `s` is the signed 14-bit two's-complement value of `F`
(`F` when `F < 8192`, `F - 16384` otherwise). -/
theorem readThermocouple_celsius_eq (frame : Nat) (h32 : frame < 2 ^ 32)
    (h17 : frame.testBit 17 = false) (h16 : frame.testBit 16 = false)
    (h3 : frame.testBit 3 = false) :
    frame >>> 18 < 16384 ∧
      twosComplement 14 (frame >>> 18) =
        (if frame >>> 18 < 8192 then ((frame >>> 18 : Nat) : Int)
          else ((frame >>> 18 : Nat) : Int) - 16384) ∧
      readThermocouple CELSIUS frame = ((twosComplement 14 (frame >>> 18) : Int) : ℚ) / 4 := by
  refine ⟨hot_field_lt frame h32, ?_, ?_⟩
  · simp [twosComplement]
  · rw [readThermocouple_reading CELSIUS frame h32 (device_ok frame h17 h3) (no_fault frame h16)]
    simp

/-- Witness for C2: the field `2 ^ 14 - 160 = 0x3F60` (frame `0xFD800000`)
reads `-40`. -/
theorem readThermocouple_celsius_eq_witness :
    ((0xFD800000 : Nat) < 2 ^ 32 ∧ Nat.testBit 0xFD800000 17 = false ∧
        Nat.testBit 0xFD800000 16 = false ∧ Nat.testBit 0xFD800000 3 = false) ∧
      0xFD800000 >>> 18 = 0x3F60 ∧ (0x3F60 : Nat) = 2 ^ 14 - 160 ∧
      readThermocouple CELSIUS 0xFD800000 = -40 :=
  ⟨⟨by decide, by decide, by decide, by decide⟩, by decide, by decide,
    (readThermocouple_celsius_eq 0xFD800000 (by decide) (by decide) (by decide)
      (by decide)).2.2.trans (by norm_num [twosComplement, Nat.shiftRight_eq_div_pow])⟩

/-- C3: for every 32-bit frame with bits 17 and 3 clear, `readJunction CELSIUS`
equals `s / 16`, where `s` is the signed 12-bit two's-complement value of the
field `G = frame >>> 4 % 4096` (bits 15..4): `G` when `G < 2048`, `G - 4096`
otherwise.  Bits 31..16 and 2..0 do not enter the result. -/
theorem readJunction_celsius_eq (frame : Nat) (h32 : frame < 2 ^ 32)
    (h17 : frame.testBit 17 = false) (h3 : frame.testBit 3 = false) :
    twosComplement 12 (frame >>> 4 % 4096) =
        (if frame >>> 4 % 4096 < 2048 then ((frame >>> 4 % 4096 : Nat) : Int)
          else ((frame >>> 4 % 4096 : Nat) : Int) - 4096) ∧
      readJunction CELSIUS frame =
        ((twosComplement 12 (frame >>> 4 % 4096) : Int) : ℚ) / 16 := by
  refine ⟨?_, ?_⟩
  · simp [twosComplement]
  · rw [readJunction_reading CELSIUS frame h32 (device_ok frame h17 h3)]
    simp

/-- Witness for C3: the field `400 = 0x190` (frame `0x00001900`) reads `25`. -/
theorem readJunction_celsius_eq_witness :
    ((0x00001900 : Nat) < 2 ^ 32 ∧ Nat.testBit 0x00001900 17 = false ∧
        Nat.testBit 0x00001900 3 = false) ∧
      0x00001900 >>> 4 % 4096 = 400 ∧ readJunction CELSIUS 0x00001900 = 25 :=
  ⟨⟨by decide, by decide, by decide⟩, by decide,
    (readJunction_celsius_eq 0x00001900 (by decide) (by decide) (by decide)).2.trans
      (by norm_num [twosComplement, Nat.shiftRight_eq_div_pow])⟩

/-- C4: for every frame with bits 17 and 3 clear and the fault flag (bit 16)
set, and for each unit, `readThermocouple` returns `FAULT_OPEN = 10000` when
`frame &&& 7 = 1`, `FAULT_SHORT_GND = 10001` when `frame &&& 7 = 2` and
`FAULT_SHORT_VCC = 10002` when `frame &&& 7 = 4`, whatever the other bits hold. -/
theorem readThermocouple_fault_sentinel (unit : unit_t) (frame : Nat)
    (h17 : frame.testBit 17 = false) (h3 : frame.testBit 3 = false)
    (h16 : frame.testBit 16 = true) :
    (frame &&& 7 = 1 → readThermocouple unit frame = 10000) ∧
      (frame &&& 7 = 2 → readThermocouple unit frame = 10001) ∧
      (frame &&& 7 = 4 → readThermocouple unit frame = 10002) := by
  have hr := readThermocouple_fault unit frame (device_ok frame h17 h3) (fault_flagged frame h16)
  rw [and_0x7]
  refine ⟨fun h => ?_, fun h => ?_, fun h => ?_⟩
  · rw [hr, if_pos h]
    rfl
  · rw [hr, if_neg (by omega), if_pos h]
    rfl
  · rw [hr, if_neg (by omega), if_neg (by omega), if_pos h]
    rfl

/-- Witness for C4: frame `0x00010001` gives `10000` (and `0x00010002`,
`0x00010004` give `10001`, `10002`). -/
theorem readThermocouple_fault_sentinel_witness :
    (Nat.testBit 0x00010001 17 = false ∧ Nat.testBit 0x00010001 3 = false ∧
        Nat.testBit 0x00010001 16 = true ∧ 0x00010001 &&& 7 = 1) ∧
      readThermocouple CELSIUS 0x00010001 = 10000 :=
  ⟨⟨by decide, by decide, by decide, by decide⟩,
    (readThermocouple_fault_sentinel CELSIUS 0x00010001 (by decide) (by decide)
      (by decide)).1 (by decide)⟩

/-- Range of the two's-complement value of a `w`-bit field, for the two widths
the driver decodes. -/
theorem twosComplement_14_bounds (F : Nat) (hF : F < 16384) :
    -8192 ≤ twosComplement 14 F ∧ twosComplement 14 F ≤ 8191 := by
  unfold twosComplement
  split
  · next h =>
    norm_num at h
    omega
  · next h =>
    norm_num at h
    norm_num
    omega

theorem twosComplement_12_bounds (G : Nat) (hG : G < 4096) :
    -2048 ≤ twosComplement 12 G ∧ twosComplement 12 G ≤ 2047 := by
  unfold twosComplement
  split
  · next h =>
    norm_num at h
    omega
  · next h =>
    norm_num at h
    norm_num
    omega

/-- The code's Fahrenheit result is the `double` conversion of its Celsius
result, on the non-fault path of `readThermocouple`. -/
theorem readThermocouple_fahrenheit_of_celsius (frame : Nat) (h32 : frame < 2 ^ 32)
    (hdev : frame &&& 0x20008 = 0) (hflt : frame &&& 0x10000 = 0) :
    readThermocouple FAHRENHEIT frame =
      dadd (ddiv (dmul (readThermocouple CELSIUS frame) 9) 5) 32 := by
  rw [readThermocouple_reading FAHRENHEIT frame h32 hdev hflt,
    readThermocouple_reading CELSIUS frame h32 hdev hflt]
  simp only [if_true, if_false, reduceCtorEq]

/-- The code's Fahrenheit result is the `double` conversion of its Celsius
result, on the decoding path of `readJunction`. -/
theorem readJunction_fahrenheit_of_celsius (frame : Nat) (h32 : frame < 2 ^ 32)
    (hdev : frame &&& 0x20008 = 0) :
    readJunction FAHRENHEIT frame =
      dadd (ddiv (dmul (readJunction CELSIUS frame) 9) 5) 32 := by
  rw [readJunction_reading FAHRENHEIT frame h32 hdev,
    readJunction_reading CELSIUS frame h32 hdev]
  simp only [if_true, if_false, reduceCtorEq]

/-- Celsius range of a genuine thermocouple reading. -/
theorem readThermocouple_celsius_range (frame : Nat) (h32 : frame < 2 ^ 32)
    (hdev : frame &&& 0x20008 = 0) (hflt : frame &&& 0x10000 = 0) :
    -2048 ≤ readThermocouple CELSIUS frame ∧ readThermocouple CELSIUS frame ≤ 2047.75 := by
  obtain ⟨hlo, hhi⟩ := twosComplement_14_bounds (frame >>> 18) (hot_field_lt frame h32)
  have hlo' : (-8192 : ℚ) ≤ ((twosComplement 14 (frame >>> 18) : Int) : ℚ) := by
    exact_mod_cast hlo
  have hhi' : ((twosComplement 14 (frame >>> 18) : Int) : ℚ) ≤ 8191 := by
    exact_mod_cast hhi
  rw [readThermocouple_reading CELSIUS frame h32 hdev hflt]
  simp only [if_false, reduceCtorEq]
  norm_num
  constructor <;> linarith

/-- Celsius range of a junction reading. -/
theorem readJunction_celsius_range (frame : Nat) (h32 : frame < 2 ^ 32)
    (hdev : frame &&& 0x20008 = 0) :
    -128 ≤ readJunction CELSIUS frame ∧ readJunction CELSIUS frame ≤ 127.9375 := by
  obtain ⟨hlo, hhi⟩ :=
    twosComplement_12_bounds (frame >>> 4 % 4096) (Nat.mod_lt _ (by norm_num))
  have hlo' : (-2048 : ℚ) ≤ ((twosComplement 12 (frame >>> 4 % 4096) : Int) : ℚ) := by
    exact_mod_cast hlo
  have hhi' : ((twosComplement 12 (frame >>> 4 % 4096) : Int) : ℚ) ≤ 2047 := by
    exact_mod_cast hhi
  rw [readJunction_reading CELSIUS frame h32 hdev]
  simp only [if_false, reduceCtorEq]
  norm_num
  constructor <;> linarith

/-- Distance between the code's Fahrenheit result and the exact conversion of
its Celsius result, for `readThermocouple`. -/
theorem readThermocouple_fahrenheit_near (frame : Nat) (h32 : frame < 2 ^ 32)
    (hdev : frame &&& 0x20008 = 0) (hflt : frame &&& 0x10000 = 0) :
    |readThermocouple FAHRENHEIT frame - (readThermocouple CELSIUS frame * 9 / 5 + 32)| ≤
      1 / 2 ^ 40 := by
  obtain ⟨h1, h2⟩ := readThermocouple_celsius_range frame h32 hdev hflt
  rw [readThermocouple_fahrenheit_of_celsius frame h32 hdev hflt]
  apply fahrenheit_error_thermocouple
  rw [abs_le]
  norm_num at h2
  constructor <;> linarith

/-- Distance between the code's Fahrenheit result and the exact conversion of
its Celsius result, for `readJunction`. -/
theorem readJunction_fahrenheit_near (frame : Nat) (h32 : frame < 2 ^ 32)
    (hdev : frame &&& 0x20008 = 0) :
    |readJunction FAHRENHEIT frame - (readJunction CELSIUS frame * 9 / 5 + 32)| ≤
      1 / 2 ^ 43 := by
  obtain ⟨h1, h2⟩ := readJunction_celsius_range frame h32 hdev
  rw [readJunction_fahrenheit_of_celsius frame h32 hdev]
  apply fahrenheit_error_junction
  rw [abs_le]
  norm_num at h2
  constructor <;> linarith

/-- Range of a genuine thermocouple reading in each unit; the Fahrenheit bounds
are those of the exact conversion, widened by the rounding error. -/
theorem readThermocouple_range (frame : Nat) (h32 : frame < 2 ^ 32)
    (hdev : frame &&& 0x20008 = 0) (hflt : frame &&& 0x10000 = 0) :
    (-2048 ≤ readThermocouple CELSIUS frame ∧ readThermocouple CELSIUS frame ≤ 2047.75) ∧
      (-3654.4 - 1 / 2 ^ 40 ≤ readThermocouple FAHRENHEIT frame ∧
        readThermocouple FAHRENHEIT frame ≤ 3717.95 + 1 / 2 ^ 40) := by
  obtain ⟨h1, h2⟩ := readThermocouple_celsius_range frame h32 hdev hflt
  have hn := readThermocouple_fahrenheit_near frame h32 hdev hflt
  rw [abs_le] at hn
  refine ⟨⟨h1, h2⟩, ?_, ?_⟩
  · norm_num at hn h1 ⊢
    linarith
  · norm_num at hn h2 ⊢
    linarith

/-- Range of a junction reading in each unit; the Fahrenheit bounds are those
of the exact conversion, widened by the rounding error. -/
theorem readJunction_range (frame : Nat) (h32 : frame < 2 ^ 32)
    (hdev : frame &&& 0x20008 = 0) :
    (-128 ≤ readJunction CELSIUS frame ∧ readJunction CELSIUS frame ≤ 127.9375) ∧
      (-198.4 - 1 / 2 ^ 43 ≤ readJunction FAHRENHEIT frame ∧
        readJunction FAHRENHEIT frame ≤ 262.2875 + 1 / 2 ^ 43) := by
  obtain ⟨h1, h2⟩ := readJunction_celsius_range frame h32 hdev
  have hn := readJunction_fahrenheit_near frame h32 hdev
  rw [abs_le] at hn
  refine ⟨⟨h1, h2⟩, ?_, ?_⟩
  · norm_num at hn h1 ⊢
    linarith
  · norm_num at hn h2 ⊢
    linarith

/-- C7: for every 32-bit frame and each unit, `readJunction` never returns
`10000`, `10001` or `10002`; it returns `10003` if and only if bit 3 or bit 17 of
the frame is set; and a frame with both bits clear decodes to a value strictly
below `10000`. -/
theorem readJunction_only_absent (unit : unit_t) (frame : Nat) (h32 : frame < 2 ^ 32) :
    readJunction unit frame ≠ 10000 ∧
      readJunction unit frame ≠ 10001 ∧
      readJunction unit frame ≠ 10002 ∧
      (readJunction unit frame = 10003 ↔
        (frame.testBit 3 = true ∨ frame.testBit 17 = true)) ∧
      (frame.testBit 3 = false → frame.testBit 17 = false →
        readJunction unit frame < 10000) := by
  have hlt : frame &&& 0x20008 = 0 → readJunction unit frame < 10000 := by
    intro hdev
    obtain ⟨⟨_, hc2⟩, _, hf2⟩ := readJunction_range frame h32 hdev
    cases unit
    · norm_num at hc2
      linarith
    · norm_num at hf2
      linarith
  by_cases hdev : frame &&& 0x20008 = 0
  · have hv := hlt hdev
    obtain ⟨h3, h17⟩ := (and_0x20008_eq_zero frame).mp hdev
    refine ⟨?_, ?_, ?_, ⟨?_, ?_⟩, fun _ _ => hv⟩
    · intro h
      rw [h] at hv
      norm_num at hv
    · intro h
      rw [h] at hv
      norm_num at hv
    · intro h
      rw [h] at hv
      norm_num at hv
    · intro h
      rw [h] at hv
      norm_num at hv
    · rintro (h | h)
      · rw [h3] at h
        exact Bool.noConfusion h
      · rw [h17] at h
        exact Bool.noConfusion h
  · have hv : readJunction unit frame = 10003 := readJunction_absent unit frame hdev
    have hbits : frame.testBit 3 = true ∨ frame.testBit 17 = true := by
      by_contra hcon
      push_neg at hcon
      exact hdev ((and_0x20008_eq_zero frame).mpr
        ⟨Bool.eq_false_iff.mpr hcon.1, Bool.eq_false_iff.mpr hcon.2⟩)
    refine ⟨?_, ?_, ?_, ⟨fun _ => hbits, fun _ => hv⟩, ?_⟩
    · rw [hv]
      norm_num
    · rw [hv]
      norm_num
    · rw [hv]
      norm_num
    · intro h3 h17
      exact absurd ((and_0x20008_eq_zero frame).mpr ⟨h3, h17⟩) hdev

/-- Witness for C7: a frame with the fault flag and the open-circuit bit set,
`0x00010001`; `readJunction` still decodes it (to `0`). -/
theorem readJunction_only_absent_witness :
    (0x00010001 : Nat) < 2 ^ 32 ∧
      (readJunction CELSIUS 0x00010001 ≠ 10000 ∧
        readJunction CELSIUS 0x00010001 ≠ 10001 ∧
        readJunction CELSIUS 0x00010001 ≠ 10002 ∧
        (readJunction CELSIUS 0x00010001 = 10003 ↔
          (Nat.testBit 0x00010001 3 = true ∨ Nat.testBit 0x00010001 17 = true)) ∧
        (Nat.testBit 0x00010001 3 = false → Nat.testBit 0x00010001 17 = false →
          readJunction CELSIUS 0x00010001 < 10000)) :=
  ⟨by decide, readJunction_only_absent CELSIUS 0x00010001 (by decide)⟩

/-- The 14-bit field is the residue of its two's-complement value modulo `2 ^ 14`. -/
theorem twosComplement_14_emod (F : Nat) (hF : F < 16384) :
    twosComplement 14 F % 2 ^ 14 = (F : Int) := by
  unfold twosComplement
  split
  · norm_num
    omega
  · norm_num
    omega

/-- Two 14-bit signed values with the same `double` Fahrenheit conversion are
equal: the exact conversions of distinct values are at least `9 / 20` apart,
far more than the rounding moves them. -/
theorem fahrenheit_thermocouple_inj (a b : Int) (ha : -8192 ≤ a ∧ a ≤ 8191)
    (hb : -8192 ≤ b ∧ b ≤ 8191)
    (h : dadd (ddiv (dmul ((a : ℚ) / 4) 9) 5) 32 = dadd (ddiv (dmul ((b : ℚ) / 4) 9) 5) 32) :
    a = b := by
  have ha1 : (-8192 : ℚ) ≤ (a : ℚ) := by exact_mod_cast ha.1
  have ha2 : (a : ℚ) ≤ 8191 := by exact_mod_cast ha.2
  have hb1 : (-8192 : ℚ) ≤ (b : ℚ) := by exact_mod_cast hb.1
  have hb2 : (b : ℚ) ≤ 8191 := by exact_mod_cast hb.2
  have ea := fahrenheit_error_thermocouple ((a : ℚ) / 4)
    (by rw [abs_le]; constructor <;> linarith)
  have eb := fahrenheit_error_thermocouple ((b : ℚ) / 4)
    (by rw [abs_le]; constructor <;> linarith)
  rw [h, abs_le] at ea
  rw [abs_le] at eb
  norm_num at ea eb
  have h1 : (a : ℚ) - b < 1 := by linarith
  have h2 : (b : ℚ) - a < 1 := by linarith
  have h1' : a - b < 1 := by exact_mod_cast h1
  have h2' : b - a < 1 := by exact_mod_cast h2
  omega

/-- C8: for every 32-bit frame with bits 17, 16 and 3 clear, whose bits 31..18
are the field `F = frame >>> 18 < 16384`, four times the Celsius reading is an
integer whose residue modulo `2 ^ 14` is `F`; consequently a second such frame
with a different field gives a different reading, in each unit. -/
theorem readThermocouple_roundtrip (frame : Nat) (h32 : frame < 2 ^ 32)
    (h17 : frame.testBit 17 = false) (h16 : frame.testBit 16 = false)
    (h3 : frame.testBit 3 = false) :
    frame >>> 18 < 16384 ∧
      (∃ z : Int, 4 * readThermocouple CELSIUS frame = (z : ℚ) ∧
        z % 2 ^ 14 = ((frame >>> 18 : Nat) : Int)) ∧
      ∀ other : Nat, other < 2 ^ 32 → other.testBit 17 = false →
        other.testBit 16 = false → other.testBit 3 = false →
        frame >>> 18 ≠ other >>> 18 →
        ∀ unit : unit_t, readThermocouple unit frame ≠ readThermocouple unit other := by
  have hF := hot_field_lt frame h32
  have hr := fun u =>
    readThermocouple_reading u frame h32 (device_ok frame h17 h3) (no_fault frame h16)
  refine ⟨hF, ⟨twosComplement 14 (frame >>> 18), ?_, twosComplement_14_emod _ hF⟩, ?_⟩
  · rw [hr CELSIUS]
    simp only [if_false, reduceCtorEq]
    ring
  · intro other o32 o17 o16 o3 hne unit heq
    have ho := readThermocouple_reading unit other o32 (device_ok other o17 o3)
      (no_fault other o16)
    rw [hr unit, ho] at heq
    have hz' : twosComplement 14 (frame >>> 18) = twosComplement 14 (other >>> 18) := by
      cases unit
      · simp only [if_false, reduceCtorEq] at heq
        have hz : ((twosComplement 14 (frame >>> 18) : Int) : ℚ) =
            ((twosComplement 14 (other >>> 18) : Int) : ℚ) := by linarith
        exact_mod_cast hz
      · simp only [if_true] at heq
        exact fahrenheit_thermocouple_inj _ _ (twosComplement_14_bounds _ hF)
          (twosComplement_14_bounds _ (hot_field_lt other o32)) heq
    have h1 := twosComplement_14_emod _ hF
    have h2 := twosComplement_14_emod _ (hot_field_lt other o32)
    rw [hz', h2] at h1
    exact hne (by exact_mod_cast h1.symm)

/-- Witness for C8: the field `0x3F60` (frame `0xFD800000`, reading `-40`):
`4 * -40 = -160` and `-160 % 16384 = 16224 = 0x3F60`. -/
theorem readThermocouple_roundtrip_witness :
    ((0xFD800000 : Nat) < 2 ^ 32 ∧ Nat.testBit 0xFD800000 17 = false ∧
        Nat.testBit 0xFD800000 16 = false ∧ Nat.testBit 0xFD800000 3 = false) ∧
      ∃ z : Int, 4 * readThermocouple CELSIUS 0xFD800000 = (z : ℚ) ∧
        z % 2 ^ 14 = ((0xFD800000 >>> 18 : Nat) : Int) :=
  ⟨⟨by decide, by decide, by decide, by decide⟩,
    (readThermocouple_roundtrip 0xFD800000 (by decide) (by decide) (by decide)
      (by decide)).2.1⟩

/-- C9: for every frame with bits 17 and 3 clear and the fault flag (bit 16)
set whose low three bits `frame &&& 7` are none of `1`, `2`, `4` (so they are
`0`, `3`, `5`, `6` or `7`), `readThermocouple` returns `0` for each unit. -/
theorem readThermocouple_unknown_fault (unit : unit_t) (frame : Nat)
    (h17 : frame.testBit 17 = false) (h3 : frame.testBit 3 = false)
    (h16 : frame.testBit 16 = true)
    (h1 : frame &&& 7 ≠ 1) (h2 : frame &&& 7 ≠ 2) (h4 : frame &&& 7 ≠ 4) :
    (frame &&& 7 = 0 ∨ frame &&& 7 = 3 ∨ frame &&& 7 = 5 ∨ frame &&& 7 = 6 ∨
        frame &&& 7 = 7) ∧
      readThermocouple unit frame = 0 := by
  rw [and_0x7] at h1 h2 h4 ⊢
  refine ⟨by omega, ?_⟩
  rw [readThermocouple_fault unit frame (device_ok frame h17 h3) (fault_flagged frame h16),
    if_neg h1, if_neg h2, if_neg h4]

/-- Witness for C9: fault flag set with no fault-type bit, frame `0x00010000`. -/
theorem readThermocouple_unknown_fault_witness :
    (Nat.testBit 0x00010000 17 = false ∧ Nat.testBit 0x00010000 3 = false ∧
        Nat.testBit 0x00010000 16 = true ∧ 0x00010000 &&& 7 ≠ 1 ∧
        0x00010000 &&& 7 ≠ 2 ∧ 0x00010000 &&& 7 ≠ 4) ∧
      ((0x00010000 &&& 7 = 0 ∨ 0x00010000 &&& 7 = 3 ∨ 0x00010000 &&& 7 = 5 ∨
          0x00010000 &&& 7 = 6 ∨ 0x00010000 &&& 7 = 7) ∧
        readThermocouple FAHRENHEIT 0x00010000 = 0) :=
  ⟨⟨by decide, by decide, by decide, by decide, by decide, by decide⟩,
    readThermocouple_unknown_fault FAHRENHEIT 0x00010000 (by decide) (by decide)
      (by decide) (by decide) (by decide) (by decide)⟩

/-- Frames that agree on bits 15..4 have the same cold-junction field. -/
theorem junction_field_congr (f g : Nat)
    (h : ∀ i : Nat, 4 ≤ i → i ≤ 15 → f.testBit i = g.testBit i) :
    f >>> 4 % 4096 = g >>> 4 % 4096 := by
  apply Nat.eq_of_testBit_eq
  intro i
  have e : (4096 : Nat) = 2 ^ 12 := by norm_num
  rw [e, Nat.testBit_mod_two_pow, Nat.testBit_mod_two_pow, Nat.testBit_shiftRight,
    Nat.testBit_shiftRight]
  by_cases hi : i < 12
  · rw [h (4 + i) (by omega) (by omega)]
  · simp [hi]

/-- C10: two 32-bit frames that agree on bit 17 and on bits 15..3 give the same
`readJunction` result in each unit; bit 16, bits 2..0 and bits 31..18 play no
part in it. -/
theorem readJunction_independent (unit : unit_t) (f g : Nat)
    (hf : f < 2 ^ 32) (hg : g < 2 ^ 32)
    (hagree : ∀ i : Nat, (i = 17 ∨ (3 ≤ i ∧ i ≤ 15)) → f.testBit i = g.testBit i) :
    readJunction unit f = readJunction unit g := by
  have e3 : f.testBit 3 = g.testBit 3 := hagree 3 (Or.inr ⟨le_refl 3, by norm_num⟩)
  have e17 : f.testBit 17 = g.testBit 17 := hagree 17 (Or.inl rfl)
  have hdev : f &&& 0x20008 = 0 ↔ g &&& 0x20008 = 0 := by
    rw [and_0x20008_eq_zero, and_0x20008_eq_zero, e3, e17]
  have hfield : f >>> 4 % 4096 = g >>> 4 % 4096 :=
    junction_field_congr f g (fun i h4 h15 => hagree i (Or.inr ⟨by omega, h15⟩))
  by_cases h0 : f &&& 0x20008 = 0
  · rw [readJunction_reading unit f hf h0, readJunction_reading unit g hg (hdev.mp h0), hfield]
  · rw [readJunction_absent unit f h0,
      readJunction_absent unit g (fun h => h0 (hdev.mpr h))]

/-- Witness for C10: `0xFFFD1907` (fault flag, all fault-type bits and all
hot-junction bits set) and `0x00001900` read the same junction temperature. -/
theorem readJunction_independent_witness :
    ((0xFFFD1907 : Nat) < 2 ^ 32 ∧ (0x00001900 : Nat) < 2 ^ 32 ∧
        ∀ i : Nat, (i = 17 ∨ (3 ≤ i ∧ i ≤ 15)) →
          Nat.testBit 0xFFFD1907 i = Nat.testBit 0x00001900 i) ∧
      readJunction CELSIUS 0xFFFD1907 = readJunction CELSIUS 0x00001900 :=
  have hbits : ∀ i : Nat, (i = 17 ∨ (3 ≤ i ∧ i ≤ 15)) →
      Nat.testBit 0xFFFD1907 i = Nat.testBit 0x00001900 i := by
    intro i hi
    have hi18 : i < 18 := by omega
    interval_cases i <;> first | rfl | omega
  ⟨⟨by decide, by decide, hbits⟩,
    readJunction_independent CELSIUS 0xFFFD1907 0x00001900 (by decide) (by decide) hbits⟩

/-! ## Frame acquisition: the loop of `readData` -/

theorem level_ne_LOW (v : Level) : v ≠ LOW ↔ v = HIGH := by
  cases v <;> simp

/-- One iteration of the loop. -/
theorem shiftIn_succ (self : Pins) (env : Int → Board → Level) (n data : Nat) (b : Board) :
    shiftIn self env (n + 1) data b =
      shiftIn self env n
        (if env self._miso (digitalWrite self._clk HIGH b) ≠ LOW then data ||| (1 <<< n)
          else data)
        (digitalWrite self._clk LOW
          (digitalRead env self._miso (digitalWrite self._clk HIGH b)).2) :=
  rfl

theorem testBit_or_one_shiftLeft (data n j : Nat) :
    (data ||| (1 <<< n)).testBit j = (data.testBit j || decide (n = j)) := by
  rw [Nat.testBit_or, Nat.one_shiftLeft, Nat.testBit_two_pow]

/-- What `n` iterations of the loop do to the board and to `data`: `n` samples of
`_miso` are appended to the log, each taken with the clock high and all other
pins as they were; afterwards the clock is low and no other pin has changed;
the sample number `k` is or-ed into bit `n - 1 - k` of `data`, and the bits from
`n` upwards are untouched. -/
theorem shiftIn_spec (self : Pins) (env : Int → Board → Level) :
    ∀ (n data : Nat) (b : Board), ∃ new : List Sample,
      new.length = n ∧
      (shiftIn self env n data b).2.samples = b.samples ++ new ∧
      (shiftIn self env n data b).2.mode = b.mode ∧
      (∀ p, p ≠ self._clk → (shiftIn self env n data b).2.level p = b.level p) ∧
      (0 < n → (shiftIn self env n data b).2.level self._clk = LOW) ∧
      (∀ s ∈ new, s.pin = self._miso ∧ s.level self._clk = HIGH ∧
        ∀ p, p ≠ self._clk → s.level p = b.level p) ∧
      (∀ j, n ≤ j → (shiftIn self env n data b).1.testBit j = data.testBit j) ∧
      (∀ k s, new[k]? = some s →
        (shiftIn self env n data b).1.testBit (n - 1 - k) =
          (data.testBit (n - 1 - k) || decide (s.value = HIGH))) := by
  intro n
  induction n with
  | zero =>
    intro data b
    refine ⟨[], rfl, by simp [shiftIn], rfl, fun _ _ => rfl, fun h => absurd h (by omega),
      fun s hs => absurd hs (List.not_mem_nil s), fun _ _ => rfl, ?_⟩
    intro k s hk
    simp at hk
  | succ n ih =>
    intro data b
    rw [shiftIn_succ]
    obtain ⟨new, hlen, hsamp, hmode, hlev, hclk, hsnap, hhigh, hbits⟩ :=
      ih (if env self._miso (digitalWrite self._clk HIGH b) ≠ LOW then data ||| (1 <<< n)
          else data)
        (digitalWrite self._clk LOW
          (digitalRead env self._miso (digitalWrite self._clk HIGH b)).2)
    have hdata : ∀ j, j ≠ n →
        (if env self._miso (digitalWrite self._clk HIGH b) ≠ LOW then data ||| (1 <<< n)
          else data).testBit j = data.testBit j := by
      intro j hj
      split
      · rw [testBit_or_one_shiftLeft]
        simp [Ne.symm hj]
      · rfl
    refine ⟨Sample.mk self._miso (env self._miso (digitalWrite self._clk HIGH b))
        (digitalWrite self._clk HIGH b).level :: new, by simp [hlen], ?_, ?_, ?_,
      ?_, ?_, ?_, ?_⟩
    · rw [hsamp]
      simp [digitalRead, digitalWrite]
    · rw [hmode]
      rfl
    · intro p hp
      rw [hlev p hp]
      simp [digitalRead, digitalWrite, Function.update, hp]
    · intro _
      by_cases hn : 0 < n
      · exact hclk hn
      · have h0 : n = 0 := by omega
        subst h0
        simp [shiftIn, digitalWrite]
    · intro s hs
      rcases List.mem_cons.mp hs with rfl | hs
      · refine ⟨rfl, by simp [digitalWrite], fun p hp => ?_⟩
        simp [digitalWrite, Function.update, hp]
      · obtain ⟨h1, h2, h3⟩ := hsnap s hs
        refine ⟨h1, h2, fun p hp => ?_⟩
        rw [h3 p hp]
        simp [digitalRead, digitalWrite, Function.update, hp]
    · intro j hj
      rw [hhigh j (by omega), hdata j (by omega)]
    · intro k s hk
      cases k with
      | zero =>
        simp only [List.getElem?_cons_zero, Option.some.injEq] at hk
        subst hk
        have e : n + 1 - 1 - 0 = n := by omega
        rw [e, hhigh n (le_refl n)]
        split
        · next hv =>
          rw [testBit_or_one_shiftLeft]
          simp [(level_ne_LOW _).mp hv]
        · next hv =>
          have hv' : ¬ env self._miso (digitalWrite self._clk HIGH b) = HIGH :=
            fun h => hv ((level_ne_LOW _).mpr h)
          simp [hv']
      | succ k =>
        simp only [List.getElem?_cons_succ] at hk
        have hkn : k < n := by
          rw [← hlen]
          exact (List.getElem?_eq_some_iff.mp hk).1
        have e : n + 1 - 1 - (k + 1) = n - 1 - k := by omega
        rw [e, hbits k s hk, hdata (n - 1 - k) (by omega)]

theorem digitalWrite_level_self (pin : Int) (v : Level) (b : Board) :
    (digitalWrite pin v b).level pin = v := by
  simp [digitalWrite]

theorem digitalWrite_level_ne (pin : Int) (v : Level) (b : Board) (p : Int) (h : p ≠ pin) :
    (digitalWrite pin v b).level p = b.level p := by
  simp [digitalWrite, Function.update_noteq h]

theorem readData_fst (self : Pins) (env : Int → Board → Level) (b : Board) :
    (readData self env b).1 = (shiftIn self env 32 0 (digitalWrite self._cs LOW b)).1 :=
  rfl

theorem readData_snd (self : Pins) (env : Int → Board → Level) (b : Board) :
    (readData self env b).2 =
      digitalWrite self._cs HIGH (shiftIn self env 32 0 (digitalWrite self._cs LOW b)).2 :=
  rfl

/-- One call of `readData` in terms of the samples it logs: there are 32 of
them, all of `_miso`, each taken with the clock high and every other pin as
`digitalWrite(_cs, LOW)` left it; sample `k` is bit `31 - k` of the result, and
the result has no bit from 32 upwards. -/
theorem readData_spec (self : Pins) (env : Int → Board → Level) (b : Board) :
    (acquired self env b).length = 32 ∧
      (readData self env b).2.samples = b.samples ++ acquired self env b ∧
      (∀ s ∈ acquired self env b, s.pin = self._miso ∧ s.level self._clk = HIGH ∧
        ∀ p, p ≠ self._clk → s.level p = (digitalWrite self._cs LOW b).level p) ∧
      (∀ j, 32 ≤ j → (readData self env b).1.testBit j = false) ∧
      (∀ k s, (acquired self env b)[k]? = some s →
        (readData self env b).1.testBit (31 - k) = decide (s.value = HIGH)) := by
  obtain ⟨new, hlen, hsamp, _, _, _, hsnap, hhigh, hbits⟩ :=
    shiftIn_spec self env 32 0 (digitalWrite self._cs LOW b)
  have hsamp' : (readData self env b).2.samples = b.samples ++ new := by
    rw [readData_snd]
    exact hsamp
  have hacq : acquired self env b = new := by
    unfold acquired
    rw [hsamp', List.drop_left]
  rw [hacq, readData_fst]
  refine ⟨hlen, hsamp', hsnap, ?_, ?_⟩
  · intro j hj
    rw [hhigh j hj, Nat.zero_testBit]
  · intro k s hk
    have h := hbits k s hk
    rw [Nat.zero_testBit, Bool.false_or] at h
    exact h

/-- Pin levels when `readData` returns: chip-select is high, the clock is low if
it is a pin other than chip-select, and no other pin has changed. -/
theorem readData_level (self : Pins) (env : Int → Board → Level) (b : Board) :
    (readData self env b).2.level self._cs = HIGH ∧
      (self._cs ≠ self._clk → (readData self env b).2.level self._clk = LOW) ∧
      (∀ p, p ≠ self._cs → p ≠ self._clk → (readData self env b).2.level p = b.level p) := by
  obtain ⟨_, _, _, _, hlev, hclk, _, _, _⟩ :=
    shiftIn_spec self env 32 0 (digitalWrite self._cs LOW b)
  rw [readData_snd]
  refine ⟨digitalWrite_level_self _ _ _, fun hne => ?_, fun p hcs hck => ?_⟩
  · rw [digitalWrite_level_ne _ _ _ _ (Ne.symm hne)]
    exact hclk (by norm_num)
  · rw [digitalWrite_level_ne _ _ _ _ hcs, hlev p hck, digitalWrite_level_ne _ _ _ _ hcs]

/-- The decoders never touch the board: the calls leave it as `readData` does. -/
theorem readThermocoupleCall_eq (self : Pins) (env : Int → Board → Level) (unit : unit_t)
    (b : Board) :
    readThermocoupleCall self env unit b =
      (readThermocouple unit (readData self env b).1, (readData self env b).2) :=
  rfl

theorem readJunctionCall_eq (self : Pins) (env : Int → Board → Level) (unit : unit_t)
    (b : Board) :
    readJunctionCall self env unit b =
      (readJunction unit (readData self env b).1, (readData self env b).2) :=
  rfl

/-- The frame returned by `readData` is a 32-bit value. -/
theorem readData_lt (self : Pins) (env : Int → Board → Level) (b : Board) :
    (readData self env b).1 < 2 ^ 32 :=
  Nat.lt_pow_two_of_testBit _ (fun j hj => (readData_spec self env b).2.2.2.1 j hj)

/-- The frame when every sample of the call has the same level `v`. -/
theorem readData_const (self : Pins) (env : Int → Board → Level) (b : Board) (v : Level)
    (h : ∀ s ∈ acquired self env b, s.value = v) (j : Nat) :
    (readData self env b).1.testBit j = (decide (j < 32) && decide (v = HIGH)) := by
  obtain ⟨hlen, _, _, hhigh, hbits⟩ := readData_spec self env b
  by_cases hj : j < 32
  · have hk : 31 - j < (acquired self env b).length := by omega
    have hget : (acquired self env b)[31 - j]? = some ((acquired self env b)[31 - j]) :=
      List.getElem?_eq_getElem hk
    have hb := hbits (31 - j) _ hget
    have e : 31 - (31 - j) = j := by omega
    rw [e, h _ (List.getElem_mem hk)] at hb
    rw [hb]
    simp [hj]
  · rw [hhigh j (by omega)]
    simp [hj]

/-- C11: if the data line reads high on every sample of an acquisition, then
`readData` returns `0xFFFFFFFF`, and the calls `readThermocouple` and
`readJunction` made of that acquisition both return the device-absent sentinel
`10003`, for each unit. -/
theorem readData_all_high (self : Pins) (env : Int → Board → Level) (b : Board)
    (hhigh : ∀ s ∈ acquired self env b, s.value = HIGH) :
    (readData self env b).1 = 0xFFFFFFFF ∧
      ∀ unit : unit_t, (readThermocoupleCall self env unit b).1 = 10003 ∧
        (readJunctionCall self env unit b).1 = 10003 := by
  have hframe : (readData self env b).1 = 0xFFFFFFFF := by
    apply Nat.eq_of_testBit_eq
    intro j
    have e : (0xFFFFFFFF : Nat) = 2 ^ 32 - 1 := by norm_num
    rw [readData_const self env b HIGH hhigh j, e, Nat.testBit_two_pow_sub_one]
    simp
  refine ⟨hframe, fun unit => ?_⟩
  rw [readThermocoupleCall_eq, readJunctionCall_eq, hframe]
  have hne : (0xFFFFFFFF : Nat) &&& 0x20008 ≠ 0 := by decide
  exact ⟨readThermocouple_absent unit _ hne, readJunction_absent unit _ hne⟩

/-- Witness for C11: pins 12, 10, 13 on a fresh board whose data line is held
high. -/
theorem readData_all_high_witness :
    (∀ s ∈ acquired ⟨12, 10, 13⟩ (fun _ _ => HIGH) powerOn, s.value = HIGH) ∧
      ((readData ⟨12, 10, 13⟩ (fun _ _ => HIGH) powerOn).1 = 0xFFFFFFFF ∧
        ∀ unit : unit_t,
          (readThermocoupleCall ⟨12, 10, 13⟩ (fun _ _ => HIGH) unit powerOn).1 = 10003 ∧
          (readJunctionCall ⟨12, 10, 13⟩ (fun _ _ => HIGH) unit powerOn).1 = 10003) :=
  ⟨by decide, readData_all_high ⟨12, 10, 13⟩ (fun _ _ => HIGH) powerOn (by decide)⟩

/-- C12: one call of `readData` takes 32 samples of the data line, and returns
the value below `2 ^ 32` whose bit `31 - k` is set exactly when sample number `k`
(counting from `0` in the order taken) was high: the first sample is the
most-significant bit, the last the least-significant. -/
theorem readData_bits (self : Pins) (env : Int → Board → Level) (b : Board) :
    (acquired self env b).length = 32 ∧
      (∀ s ∈ acquired self env b, s.pin = self._miso) ∧
      (readData self env b).1 < 2 ^ 32 ∧
      ∀ k : Fin 32, ((readData self env b).1.testBit (31 - k.val) = true ↔
        ((acquired self env b).map Sample.value)[k.val]? = some HIGH) := by
  obtain ⟨hlen, _, hsnap, _, hbits⟩ := readData_spec self env b
  refine ⟨hlen, fun s hs => (hsnap s hs).1, readData_lt self env b, fun k => ?_⟩
  have hk : k.val < (acquired self env b).length := by
    rw [hlen]
    exact k.isLt
  have hget : (acquired self env b)[k.val]? = some ((acquired self env b)[k.val]) :=
    List.getElem?_eq_getElem hk
  rw [hbits k.val _ hget, List.getElem?_map, hget]
  simp

/-- C13: for a driver whose chip-select and clock are different pins and any
behaviour of the data line, one call of `readData` takes exactly 32 samples, all
of the data pin and each with chip-select low and the clock high; when it
returns chip-select is high and the clock is low; and the level of every pin at
return is the same under any other behaviour of the data line. -/
theorem readData_protocol (self : Pins) (env : Int → Board → Level) (b : Board)
    (hne : self._cs ≠ self._clk) :
    (acquired self env b).length = 32 ∧
      (∀ s ∈ acquired self env b,
        s.pin = self._miso ∧ s.level self._cs = LOW ∧ s.level self._clk = HIGH) ∧
      ((readData self env b).2.level self._cs = HIGH ∧
        (readData self env b).2.level self._clk = LOW) ∧
      ∀ (other : Int → Board → Level) (p : Int),
        (acquired self other b).length = (acquired self env b).length ∧
        (readData self other b).2.level p = (readData self env b).2.level p := by
  obtain ⟨hlen, _, hsnap, _, _⟩ := readData_spec self env b
  obtain ⟨hcs, hclk, hrest⟩ := readData_level self env b
  refine ⟨hlen, fun s hs => ?_, ⟨hcs, hclk hne⟩, fun other p => ?_⟩
  · obtain ⟨h1, h2, h3⟩ := hsnap s hs
    refine ⟨h1, ?_, h2⟩
    rw [h3 _ hne, digitalWrite_level_self]
  · obtain ⟨ocs, oclk, orest⟩ := readData_level self other b
    refine ⟨by rw [hlen, (readData_spec self other b).1], ?_⟩
    by_cases h1 : p = self._cs
    · rw [h1, hcs, ocs]
    · by_cases h2 : p = self._clk
      · rw [h2, hclk hne, oclk hne]
      · rw [hrest p h1 h2, orest p h1 h2]

/-- Witness for C13: pins 12, 10, 13 on a fresh board whose data line is high
for the first three samples and low afterwards. -/
theorem readData_protocol_witness :
    ((10 : Int) ≠ 13) ∧
      ((acquired ⟨12, 10, 13⟩
          (fun _ b => if b.samples.length < 3 then HIGH else LOW) powerOn).length = 32 ∧
        ((readData ⟨12, 10, 13⟩
            (fun _ b => if b.samples.length < 3 then HIGH else LOW) powerOn).2.level 10 = HIGH ∧
          (readData ⟨12, 10, 13⟩
            (fun _ b => if b.samples.length < 3 then HIGH else LOW) powerOn).2.level 13 = LOW)) :=
  ⟨by decide,
    (readData_protocol ⟨12, 10, 13⟩ (fun _ b => if b.samples.length < 3 then HIGH else LOW)
      powerOn (by decide)).1,
    (readData_protocol ⟨12, 10, 13⟩ (fun _ b => if b.samples.length < 3 then HIGH else LOW)
      powerOn (by decide)).2.2.1⟩

/-- The all-zero frame decodes to `0` in Celsius on both channels. -/
theorem decode_zero :
    readThermocouple CELSIUS 0 = 0 ∧ readJunction CELSIUS 0 = 0 := by
  constructor
  · rw [readThermocouple_reading CELSIUS 0 (by norm_num) (by decide) (by decide)]
    simp [twosComplement]
  · rw [readJunction_reading CELSIUS 0 (by norm_num) (by decide)]
    simp [twosComplement]

/-- C14: the all-zero frame has the reserved bits and the fault flag clear, and
`readThermocouple CELSIUS` and `readJunction CELSIUS` both decode it to `0`,
which is none of the sentinels; and when the data line reads low on every
sample of an acquisition, `readData` returns that frame and both calls return
`0`. -/
theorem readData_all_low (self : Pins) (env : Int → Board → Level) (b : Board)
    (hlow : ∀ s ∈ acquired self env b, s.value = LOW) :
    (0 &&& 0x20008 = 0 ∧ 0 &&& 0x10000 = 0) ∧
      (readThermocouple CELSIUS 0 = 0 ∧ readJunction CELSIUS 0 = 0) ∧
      ((0 : ℚ) ≠ FAULT_OPEN ∧ (0 : ℚ) ≠ FAULT_SHORT_GND ∧ (0 : ℚ) ≠ FAULT_SHORT_VCC ∧
        (0 : ℚ) ≠ NO_MAX31855) ∧
      (readData self env b).1 = 0 ∧
      (readThermocoupleCall self env CELSIUS b).1 = 0 ∧
      (readJunctionCall self env CELSIUS b).1 = 0 := by
  have hframe : (readData self env b).1 = 0 := by
    apply Nat.eq_of_testBit_eq
    intro j
    rw [readData_const self env b LOW hlow j, Nat.zero_testBit]
    simp
  refine ⟨⟨by decide, by decide⟩, decode_zero, ?_, hframe, ?_, ?_⟩
  · norm_num [FAULT_OPEN, FAULT_SHORT_GND, FAULT_SHORT_VCC, NO_MAX31855]
  · rw [readThermocoupleCall_eq, hframe]
    exact decode_zero.1
  · rw [readJunctionCall_eq, hframe]
    exact decode_zero.2

/-- Witness for C14: pins 12, 10, 13 on a fresh board whose data line is held
low. -/
theorem readData_all_low_witness :
    (∀ s ∈ acquired ⟨12, 10, 13⟩ (fun _ _ => LOW) powerOn, s.value = LOW) ∧
      (readThermocouple CELSIUS 0 = 0 ∧ readJunction CELSIUS 0 = 0) ∧
      (readData ⟨12, 10, 13⟩ (fun _ _ => LOW) powerOn).1 = 0 ∧
      (readThermocoupleCall ⟨12, 10, 13⟩ (fun _ _ => LOW) CELSIUS powerOn).1 = 0 ∧
      (readJunctionCall ⟨12, 10, 13⟩ (fun _ _ => LOW) CELSIUS powerOn).1 = 0 :=
  ⟨by decide,
    (readData_all_low ⟨12, 10, 13⟩ (fun _ _ => LOW) powerOn (by decide)).2.1,
    (readData_all_low ⟨12, 10, 13⟩ (fun _ _ => LOW) powerOn (by decide)).2.2.2⟩

/-- The idle state can only be observed on a driver whose chip-select and clock
are different pins: one pin cannot be high and low at once. -/
theorem idle_pins_distinct (self : Pins) (b : Board) (h : idle self b) :
    self._cs ≠ self._clk := by
  intro he
  obtain ⟨h1, h2⟩ := h
  rw [he, h2] at h1
  exact Level.noConfusion h1

/-- The constructor leaves the pin numbers as given and the bus idle. -/
theorem construct_idle (miso cs clk : Int) (hne : cs ≠ clk) (b : Board) :
    (construct miso cs clk b).1 = { _miso := miso, _cs := cs, _clk := clk } ∧
      idle (construct miso cs clk b).1 (construct miso cs clk b).2 := by
  refine ⟨rfl, ?_, ?_⟩
  · show (digitalWrite clk LOW (digitalWrite cs HIGH _)).level cs = HIGH
    rw [digitalWrite_level_ne _ _ _ _ hne, digitalWrite_level_self]
  · show (digitalWrite clk LOW (digitalWrite cs HIGH _)).level clk = LOW
    rw [digitalWrite_level_self]

/-- Every public call returns with the bus idle, whatever state it started in. -/
theorem call_idle (self : Pins) (env : Int → Board → Level) (hne : self._cs ≠ self._clk)
    (c : Call) (b : Board) : idle self (c.run self env b) := by
  obtain ⟨hcs, hclk, _⟩ := readData_level self env b
  cases c with
  | thermocouple unit => exact ⟨hcs, hclk hne⟩
  | junction unit => exact ⟨hcs, hclk hne⟩

/-- C16: for a driver constructed on distinct chip-select and clock pins, the
idle state (chip-select high, clock low) holds right after construction, after
every call of `readThermocouple` and of `readJunction` (for every unit and data
line, from any board state), and hence after every sequence of such calls
following construction. -/
theorem idle_invariant (miso cs clk : Int) (hne : cs ≠ clk) (env : Int → Board → Level)
    (b : Board) :
    idle (construct miso cs clk b).1 (construct miso cs clk b).2 ∧
      (∀ (unit : unit_t) (b1 : Board),
        idle (construct miso cs clk b).1
            (readThermocoupleCall (construct miso cs clk b).1 env unit b1).2 ∧
          idle (construct miso cs clk b).1
            (readJunctionCall (construct miso cs clk b).1 env unit b1).2) ∧
      ∀ calls : List Call,
        idle (construct miso cs clk b).1
          (runAll (construct miso cs clk b).1 env calls (construct miso cs clk b).2) := by
  obtain ⟨hself, hidle⟩ := construct_idle miso cs clk hne b
  have hne' : (construct miso cs clk b).1._cs ≠ (construct miso cs clk b).1._clk := by
    rw [hself]
    exact hne
  refine ⟨hidle, fun unit b1 => ⟨?_, ?_⟩, fun calls => ?_⟩
  · exact call_idle _ env hne' (Call.thermocouple unit) b1
  · exact call_idle _ env hne' (Call.junction unit) b1
  · generalize (construct miso cs clk b).2 = b0 at hidle
    induction calls generalizing b0 with
    | nil => exact hidle
    | cons c rest ih => exact ih _ (call_idle _ env hne' c b0)

/-- Witness for C16: pins 12, 10, 13 on a fresh board with the data line held
high (no device), so that each call takes the early device-absent return. -/
theorem idle_invariant_witness :
    ((10 : Int) ≠ 13) ∧
      idle (construct 12 10 13 powerOn).1
        (runAll (construct 12 10 13 powerOn).1 (fun _ _ => HIGH)
          [Call.thermocouple CELSIUS, Call.junction FAHRENHEIT]
          (construct 12 10 13 powerOn).2) :=
  ⟨by decide,
    (idle_invariant 12 10 13 (by decide) (fun _ _ => HIGH) powerOn).2.2
      [Call.thermocouple CELSIUS, Call.junction FAHRENHEIT]⟩

/-- Frames below `2 ^ 32` that agree on bits 31..18 have the same hot-junction
field. -/
theorem hot_field_congr (f g : Nat) (hf : f < 2 ^ 32) (hg : g < 2 ^ 32)
    (h : ∀ i : Nat, 18 ≤ i → i ≤ 31 → f.testBit i = g.testBit i) :
    f >>> 18 = g >>> 18 := by
  apply Nat.eq_of_testBit_eq
  intro i
  rw [Nat.testBit_shiftRight, Nat.testBit_shiftRight]
  by_cases hi : 18 + i ≤ 31
  · exact h (18 + i) (by omega) hi
  · have hpow : 2 ^ 32 ≤ 2 ^ (18 + i) := Nat.pow_le_pow_right (by norm_num) (by omega)
    rw [Nat.testBit_lt_two_pow (lt_of_lt_of_le hf hpow),
      Nat.testBit_lt_two_pow (lt_of_lt_of_le hg hpow)]

/-- C17: two 32-bit frames that both have bits 17, 16 and 3 clear and agree on
bits 31..18 give the same `readThermocouple` result in each unit, whatever
their bits 15..4 and 2..0 are; and that result is a temperature, never
`FAULT_OPEN = 10000`. -/
theorem readThermocouple_independent (unit : unit_t) (f g : Nat)
    (hf : f < 2 ^ 32) (hg : g < 2 ^ 32)
    (f17 : f.testBit 17 = false) (f16 : f.testBit 16 = false) (f3 : f.testBit 3 = false)
    (g17 : g.testBit 17 = false) (g16 : g.testBit 16 = false) (g3 : g.testBit 3 = false)
    (hagree : ∀ i : Nat, 18 ≤ i → i ≤ 31 → f.testBit i = g.testBit i) :
    readThermocouple unit f = readThermocouple unit g ∧ readThermocouple unit f ≠ 10000 := by
  refine ⟨?_, ?_⟩
  · rw [readThermocouple_reading unit f hf (device_ok f f17 f3) (no_fault f f16),
      readThermocouple_reading unit g hg (device_ok g g17 g3) (no_fault g g16),
      hot_field_congr f g hf hg hagree]
  · obtain ⟨⟨_, hc⟩, _, hfh⟩ :=
      readThermocouple_range f hf (device_ok f f17 f3) (no_fault f f16)
    intro h
    cases unit
    · rw [h] at hc
      norm_num at hc
    · rw [h] at hfh
      norm_num at hfh

/-- Witness for C17: `0x0004FFF7` (all cold-junction bits and all three
fault-type bits set, bit 16 clear) and `0x00040000` both read field `1`. -/
theorem readThermocouple_independent_witness :
    ((0x0004FFF7 : Nat) < 2 ^ 32 ∧ (0x00040000 : Nat) < 2 ^ 32 ∧
        Nat.testBit 0x0004FFF7 17 = false ∧ Nat.testBit 0x0004FFF7 16 = false ∧
        Nat.testBit 0x0004FFF7 3 = false ∧ Nat.testBit 0x0004FFF7 0 = true ∧
        Nat.testBit 0x00040000 17 = false ∧ Nat.testBit 0x00040000 16 = false ∧
        Nat.testBit 0x00040000 3 = false ∧
        ∀ i : Nat, 18 ≤ i → i ≤ 31 →
          Nat.testBit 0x0004FFF7 i = Nat.testBit 0x00040000 i) ∧
      (readThermocouple CELSIUS 0x0004FFF7 = readThermocouple CELSIUS 0x00040000 ∧
        readThermocouple CELSIUS 0x0004FFF7 ≠ 10000) :=
  have hbits : ∀ i : Nat, 18 ≤ i → i ≤ 31 →
      Nat.testBit 0x0004FFF7 i = Nat.testBit 0x00040000 i := by
    intro i h1 h2
    interval_cases i <;> rfl
  ⟨⟨by decide, by decide, by decide, by decide, by decide, by decide, by decide, by decide,
      by decide, hbits⟩,
    readThermocouple_independent CELSIUS 0x0004FFF7 0x00040000 (by decide) (by decide)
      (by decide) (by decide) (by decide) (by decide) (by decide) (by decide) hbits⟩

end MAX31855
